import Mathlib

/-!
Verification of the entendre neural-net core: graph templates, the
connection scheduler, and the consecutive evaluation engine.

The embedding follows the source layout:
  * `neural_net.rs`: activation catalogue, node/connection templates,
    `NeuralNetBuilder` and its incremental operations, the `Error` type.
  * `neural_net_consecutive.rs`: realized `Node` state machine
    (`Accumulator`/`Activated`), `connection_order` scheduling,
    `build_from`, and `evaluate`.

Scalar values (`f32` in the source) are modelled as real numbers.
Indexing that would panic in the source (`nodes[i]` out of bounds) is
modelled by `Option`: a `none` result of `evaluate` marks a panic.
`connection_order`'s `while` loop is modelled with a fuel counter equal
to the number of pending connections; each iteration either errors or
removes one pending key, so the fuel-exhaustion branch is unreachable
(it conservatively reports the same `ConnectionLoop` failure the stuck
loop reports).  The source drains a `HashMap` whose iteration order is
unspecified; the embedding scans pending connections in index order,
which is one admissible tie-break of the source's arbitrary choice.
-/

namespace Entendre

noncomputable section

inductive NodeType
  | Bias
  | Input
  | Output
  | Hidden
deriving DecidableEq

inductive ConnectionType
  | Normal
  | Recurrent
deriving DecidableEq

inductive ActivationFunction
  | Sigmoid
  | Identity
  | Tanh
  | Relu
  | Gaussian
  | Sin
  | Cos
  | Abs
  | Square
deriving DecidableEq

/-- `ActivationFunction::apply` from `neural_net.rs`. -/
def ActivationFunction.apply : ActivationFunction → ℝ → ℝ
  | .Sigmoid, x => 1 / (1 + Real.exp (-x))
  | .Identity, x => x
  | .Tanh, x => Real.tanh x
  | .Relu, x => max x 0
  | .Gaussian, x => Real.exp (-x * x / 2)
  | .Sin, x => Real.sin x
  | .Cos, x => Real.cos x
  | .Abs, x => |x|
  | .Square, x => x * x

structure NodeTemplate where
  node_type : NodeType
  func : ActivationFunction

structure ConnectionTemplate where
  origin : Nat
  dest : Nat
  weight : ℝ
  connection_type : ConnectionType

instance : Inhabited ConnectionTemplate := ⟨⟨0, 0, 0, .Normal⟩⟩

inductive Error
  | ConnectionLoop
  | InvalidConnectionIndex
deriving DecidableEq

deriving instance DecidableEq for Except

structure NeuralNetBuilder where
  nodes : List NodeTemplate
  connections : List ConnectionTemplate
  default_func : ActivationFunction

/-- `NeuralNetBuilder::new`. -/
def NeuralNetBuilder.new : NeuralNetBuilder := ⟨[], [], .Sigmoid⟩

/-- `NeuralNetBuilder::set_default_activation`. -/
def NeuralNetBuilder.set_default_activation (b : NeuralNetBuilder)
    (f : ActivationFunction) : NeuralNetBuilder :=
  { b with default_func := f }

/-- `NeuralNetBuilder::add_input`: always pins the identity activation. -/
def NeuralNetBuilder.add_input (b : NeuralNetBuilder) : NeuralNetBuilder :=
  { b with nodes := b.nodes ++ [⟨.Input, .Identity⟩] }

/-- `NeuralNetBuilder::add_inputs`. -/
def NeuralNetBuilder.add_inputs (b : NeuralNetBuilder) : Nat → NeuralNetBuilder
  | 0 => b
  | n + 1 => b.add_input.add_inputs n

/-- `NeuralNetBuilder::add_node`. -/
def NeuralNetBuilder.add_node (b : NeuralNetBuilder) (t : NodeType)
    (f : ActivationFunction) : NeuralNetBuilder :=
  { b with nodes := b.nodes ++ [⟨t, f⟩] }

/-- `NeuralNetBuilder::add_nodes`: each appended node reads the current
default activation function. -/
def NeuralNetBuilder.add_nodes (b : NeuralNetBuilder) (t : NodeType) :
    Nat → NeuralNetBuilder
  | 0 => b
  | n + 1 => (b.add_node t b.default_func).add_nodes t n

/-- `NeuralNetBuilder::add_connection`: no bounds check at this stage. -/
def NeuralNetBuilder.add_connection (b : NeuralNetBuilder)
    (origin dest : Nat) (weight : ℝ) (ct : ConnectionType) : NeuralNetBuilder :=
  { b with connections := b.connections ++ [⟨origin, dest, weight, ct⟩] }

/-- `NeuralNetBuilder::add_normal_connection`. -/
def NeuralNetBuilder.add_normal_connection (b : NeuralNetBuilder)
    (origin dest : Nat) (weight : ℝ) : NeuralNetBuilder :=
  b.add_connection origin dest weight .Normal

/-- `NeuralNetBuilder::add_recurrent_connection`. -/
def NeuralNetBuilder.add_recurrent_connection (b : NeuralNetBuilder)
    (origin dest : Nat) (weight : ℝ) : NeuralNetBuilder :=
  b.add_connection origin dest weight .Recurrent

/-- `NodeValue` from `neural_net_consecutive.rs`. -/
inductive NodeValue
  | Accumulator (x : ℝ)
  | Activated (x : ℝ)

structure Node where
  value : NodeValue
  node_type : NodeType
  func : ActivationFunction

/-- `Node::get_val`: settle an accumulating node by applying its
activation function once, or return the cached activated value.
Returns the read value together with the updated node. -/
def Node.get_val (n : Node) : ℝ × Node :=
  match n.value with
  | .Activated x => (x, n)
  | .Accumulator x =>
      (n.func.apply x, { n with value := .Activated (n.func.apply x) })

/-- `Node::add_to_val`: a contribution replaces a settled value and adds
to an accumulating one. -/
def Node.add_to_val (n : Node) (x : ℝ) : Node :=
  { n with value :=
      match n.value with
      | .Activated _ => .Accumulator x
      | .Accumulator y => .Accumulator (x + y) }

structure Connection where
  origin : Nat
  dest : Nat
  weight : ℝ
  connection_type : ConnectionType

structure ConsecutiveNeuralNet where
  nodes : List Node
  connections : List Connection

/-- The predicate of the `filter` inside `connection_order` building
`must_be_after`: connection `i` is a required predecessor of `j`. -/
def connBlocks (cs : List ConnectionTemplate) (i j : Nat) : Bool :=
  let conn_i := cs.getD i default
  let conn_j := cs.getD j default
  decide (i ≠ j) &&
    ((decide (conn_i.dest = conn_j.origin) &&
        decide (conn_j.connection_type = .Normal)) ||
     (decide (conn_i.origin = conn_j.dest) &&
        decide (conn_i.connection_type = .Recurrent)))

/-- The `required_before` list computed for connection `j`. -/
def required_before (cs : List ConnectionTemplate) (j : Nat) : List Nat :=
  (List.range cs.length).filter (fun i => connBlocks cs i j)

/-- The initial `must_be_after` map, as an association list keyed in
index order. -/
def init_pending (cs : List ConnectionTemplate) : List (Nat × List Nat) :=
  (List.range cs.length).map (fun j => (j, required_before cs j))

/-- A pending entry is ready when none of its required predecessors is
still a key of the pending map. -/
def ready (pending : List (Nat × List Nat)) (v : List Nat) : Bool :=
  v.all (fun b => decide (b ∉ pending.map Prod.fst))

/-- Scan for the first ready pending connection (the source picks an
arbitrary ready one from a `HashMap` iterator). -/
def pickReady (scan pending : List (Nat × List Nat)) : Option Nat :=
  match scan with
  | [] => none
  | (k, v) :: rest => if ready pending v then some k else pickReady rest pending

/-- The `while` loop of `connection_order`.  One fuel unit per
iteration; each iteration removes a key, so fuel equal to the initial
pending length is never exhausted (the exhaustion branch conservatively
reports the stuck-loop failure). -/
def order_loop (fuel : Nat) (pending : List (Nat × List Nat))
    (acc : List Nat) : Except Error (List Nat) :=
  match fuel, pending with
  | _, [] => .ok acc.reverse
  | 0, _ :: _ => .error .ConnectionLoop
  | f + 1, p :: ps =>
      match pickReady (p :: ps) (p :: ps) with
      | none => .error .ConnectionLoop
      | some k =>
          order_loop f ((p :: ps).filter (fun q => decide (q.1 ≠ k))) (k :: acc)

/-- `connection_order` from `neural_net_consecutive.rs`. -/
def connection_order (cs : List ConnectionTemplate) :
    Except Error (List Nat) :=
  order_loop cs.length (init_pending cs) []

/-- The materialization of connections in scheduler order inside
`build_from`: each scheduled index is resolved against the template
array, `InvalidConnectionIndex` on a miss. -/
def realize_connections (cs : List ConnectionTemplate) :
    List Nat → Except Error (List Connection)
  | [] => .ok []
  | i :: rest =>
      match cs[i]? with
      | none => .error .InvalidConnectionIndex
      | some t =>
          match realize_connections cs rest with
          | .error e => .error e
          | .ok l => .ok (⟨t.origin, t.dest, t.weight, t.connection_type⟩ :: l)

/-- `ConsecutiveNeuralNet::build_from`. -/
def build_from (builder : NeuralNetBuilder) :
    Except Error ConsecutiveNeuralNet :=
  match connection_order builder.connections with
  | .error e => .error e
  | .ok ord =>
      match realize_connections builder.connections ord with
      | .error e => .error e
      | .ok conns =>
          .ok ⟨builder.nodes.map
                 (fun t => ⟨.Accumulator 0, t.node_type, t.func⟩),
               conns⟩

/-- `ConsecutiveNeuralNet::load_input_values`: zip the `Input`-typed
nodes positionally with the inputs, set each directly to `Activated`. -/
def load_input_values : List Node → List ℝ → List Node
  | [], _ => []
  | n :: ns, [] => n :: ns
  | n :: ns, x :: xs =>
      if n.node_type = .Input then
        { n with value := .Activated x } :: load_input_values ns xs
      else
        n :: load_input_values ns (x :: xs)

/-- One step of the connection-firing loop of `evaluate`:
`nodes[origin].get_val()` then `nodes[dest].add_to_val(val * weight)`.
Out-of-bounds indexing (a panic in the source) yields `none`. -/
def fire (nodes : List Node) (conn : Connection) : Option (List Node) :=
  match nodes[conn.origin]? with
  | none => none
  | some n =>
      let r := n.get_val
      let nodes2 := nodes.set conn.origin r.2
      match nodes2[conn.dest]? with
      | none => none
      | some m => some (nodes2.set conn.dest (m.add_to_val (r.1 * conn.weight)))

/-- Fire all connections in stored (scheduler) order. -/
def fire_all : List Node → List Connection → Option (List Node)
  | ns, [] => some ns
  | ns, c :: cs =>
      match fire ns c with
      | none => none
      | some ns2 => fire_all ns2 cs

/-- The output-collection pass of `evaluate`: read every `Output` node
in template order (settling it if needed). -/
def collect_outputs : List Node → List ℝ × List Node
  | [] => ([], [])
  | n :: ns =>
      if n.node_type = .Output then
        ((n.get_val.1) :: (collect_outputs ns).1,
         (n.get_val.2) :: (collect_outputs ns).2)
      else
        ((collect_outputs ns).1, n :: (collect_outputs ns).2)

/-- `ConsecutiveNeuralNet::evaluate`.  Returns the outputs plus the
updated net (the source mutates in place); `none` marks the panic of an
out-of-bounds node index. -/
def evaluate (net : ConsecutiveNeuralNet) (inputs : List ℝ) :
    Option (List ℝ × ConsecutiveNeuralNet) :=
  match fire_all (load_input_values net.nodes inputs) net.connections with
  | none => none
  | some ns2 =>
      some ((collect_outputs ns2).1, ⟨(collect_outputs ns2).2, net.connections⟩)

/-- Boolean check that every connection template of a builder addresses
node indices inside the node-template bounds. -/
def conns_in_bounds (b : NeuralNetBuilder) : Bool :=
  b.connections.all (fun c =>
    decide (c.origin < b.nodes.length) && decide (c.dest < b.nodes.length))

/-- The cyclically adjacent pairs of a list: `(c0,c1), …, (ck-1,c0)`. -/
def cyclic_pairs (l : List Nat) : List (Nat × Nat) := l.zip (l.rotate 1)

/-- The list `l` of connection indices is a cycle of at least two
distinct `Normal` connections in `cs`: each connection's destination is
the next one's origin, cyclically, with adjacent indices distinct. -/
def normal_cycle (cs : List ConnectionTemplate) (l : List Nat) : Bool :=
  !l.isEmpty &&
  l.all (fun i => decide (i < cs.length) &&
    decide ((cs.getD i default).connection_type = .Normal)) &&
  (cyclic_pairs l).all (fun p => decide (p.1 ≠ p.2) &&
    decide ((cs.getD p.1 default).dest = (cs.getD p.2 default).origin))

/-- The list `l` of connection indices is a cycle of at least two
distinct `Recurrent` connections in `cs`. -/
def recurrent_cycle (cs : List ConnectionTemplate) (l : List Nat) : Bool :=
  !l.isEmpty &&
  l.all (fun i => decide (i < cs.length) &&
    decide ((cs.getD i default).connection_type = .Recurrent)) &&
  (cyclic_pairs l).all (fun p => decide (p.1 ≠ p.2) &&
    decide ((cs.getD p.1 default).dest = (cs.getD p.2 default).origin))

/-- One node, one `Normal` connection whose origin `5` is out of range
for the single node template. -/
def C1_builder : NeuralNetBuilder :=
  (NeuralNetBuilder.new.add_node .Output .Identity).add_normal_connection 5 0 1

/-- One node, one `Normal` connection whose destination `7` is out of
range for the single node template. -/
def C2cex_builder : NeuralNetBuilder :=
  (NeuralNetBuilder.new.add_node .Output .Identity).add_normal_connection 0 7 1

/-- A well-formed two-node builder: one input feeding one output. -/
def C2w_builder : NeuralNetBuilder :=
  ((NeuralNetBuilder.new.add_inputs 1).add_nodes .Output 1).add_normal_connection 0 1 1

/-- The net `build_from C2w_builder` produces. -/
def C2w_net : ConsecutiveNeuralNet :=
  ⟨[⟨.Accumulator 0, .Input, .Identity⟩, ⟨.Accumulator 0, .Output, .Sigmoid⟩],
   [⟨0, 1, 1, .Normal⟩]⟩

/-- A single `Normal` self-loop `0 → 0`. -/
def C3cex_builder : NeuralNetBuilder :=
  (NeuralNetBuilder.new.add_node .Output .Identity).add_normal_connection 0 0 1

/-- A two-connection all-`Normal` cycle `0 → 1, 1 → 0`. -/
def C3w_builder : NeuralNetBuilder :=
  ((NeuralNetBuilder.new.add_nodes .Hidden 2).add_normal_connection 0 1 1).add_normal_connection 1 0 1

/-- A single `Recurrent` self-loop `0 → 0`. -/
def C4cex_builder : NeuralNetBuilder :=
  (NeuralNetBuilder.new.add_node .Output .Sigmoid).add_recurrent_connection 0 0 1

/-- A two-connection all-`Recurrent` cycle `0 → 1, 1 → 0`. -/
def C4w_builder : NeuralNetBuilder :=
  ((NeuralNetBuilder.new.add_nodes .Hidden 2).add_recurrent_connection 0 1 1).add_recurrent_connection 1 0 1

/-- Two identity inputs and one identity output with connections
`(0→2, w=1)` and `(1→2, w=-1)` — the source's `test_simple_net`. -/
def C5_builder : NeuralNetBuilder :=
  ((((NeuralNetBuilder.new.set_default_activation .Identity).add_nodes .Input 2).add_nodes
    .Output 1).add_normal_connection 0 2 1).add_normal_connection 1 2 (-1)

/-- Sigmoid chain `Input → Hidden → Output`, connections added in
forward order — first half of the source's `test_multilayered_net`. -/
def C6_forward_builder : NeuralNetBuilder :=
  (((((NeuralNetBuilder.new.set_default_activation .Sigmoid).add_nodes .Input 1).add_nodes
    .Hidden 1).add_nodes .Output 1).add_normal_connection 0 1 1).add_normal_connection 1 2 1

/-- The same chain with the two connections added in reverse order. -/
def C6_reverse_builder : NeuralNetBuilder :=
  (((((NeuralNetBuilder.new.set_default_activation .Sigmoid).add_nodes .Input 1).add_nodes
    .Hidden 1).add_nodes .Output 1).add_normal_connection 1 2 1).add_normal_connection 0 1 1

/-- A single sigmoid output node with a self `Recurrent` connection of
weight `2`. -/
def C7_builder : NeuralNetBuilder :=
  (NeuralNetBuilder.new.add_node .Output .Sigmoid).add_recurrent_connection 0 0 2

/-- Build the recurrent single-node net and evaluate it twice in
sequence with no inputs, collecting both rounds' outputs. -/
def C7_two_runs : Option (List ℝ × List ℝ) :=
  (build_from C7_builder).toOption.bind fun net =>
    (evaluate net []).bind fun p =>
      (evaluate p.2 []).map fun q => (p.1, q.1)

end

/-- Shorthand for the output-only view of build-then-evaluate. -/
noncomputable def build_and_outputs (b : NeuralNetBuilder) (ins : List ℝ) :
    Option (List ℝ) :=
  (build_from b).toOption.bind fun net => (evaluate net ins).map Prod.fst

/-- C1: the claim says a connection whose origin or dest is out of
range for the node templates makes `build` fail with
`InvalidConnectionIndex` and evaluation never reads out of bounds.  The
code instead builds such a template successfully — `build_from` never
compares origin/dest against the node count — and the subsequent
`evaluate` indexes the node array out of bounds (a panic, modelled as
`none`). -/
theorem C1_out_of_range_index_builds_then_evaluate_panics :
    (build_from C1_builder).isOk = true ∧
    (build_from C1_builder).toOption.bind (fun net => evaluate net []) = none := by
  constructor <;> rfl

/-- C5: the two-input identity net with weights `1` and `-1`, evaluated
on `[0.5, 1.5]`, yields exactly `[-1]`. -/
theorem C5_simple_net_evaluates_to_neg_one :
    build_and_outputs C5_builder [0.5, 1.5] = some [-1] := by
  have h : build_and_outputs C5_builder [0.5, 1.5]
      = some [ActivationFunction.Identity.apply (1.5 * -1 + (0.5 * 1 + 0))] := rfl
  rw [h]
  norm_num [ActivationFunction.apply]

/-- C6: the sigmoid chain built with connections added in forward order
and the one built with them added in reverse order both evaluate input
`[0]` to `[sigmoid (sigmoid 0)]`. -/
theorem C6_connection_insertion_order_irrelevant :
    build_and_outputs C6_forward_builder [0]
      = some [ActivationFunction.Sigmoid.apply (ActivationFunction.Sigmoid.apply 0)] ∧
    build_and_outputs C6_reverse_builder [0]
      = some [ActivationFunction.Sigmoid.apply (ActivationFunction.Sigmoid.apply 0)] := by
  have hf : build_and_outputs C6_forward_builder [0]
      = some [ActivationFunction.Sigmoid.apply
          (ActivationFunction.Sigmoid.apply (0 * 1 + 0) * 1 + 0)] := rfl
  have hr : build_and_outputs C6_reverse_builder [0]
      = some [ActivationFunction.Sigmoid.apply
          (ActivationFunction.Sigmoid.apply (0 * 1 + 0) * 1 + 0)] := rfl
  rw [hf, hr]
  norm_num

/-- The sigmoid activation is injective. -/
theorem sigmoid_injective : Function.Injective ActivationFunction.Sigmoid.apply := by
  intro x y h
  simp only [ActivationFunction.apply] at h
  have hx : (0 : ℝ) < 1 + Real.exp (-x) := by positivity
  have hy : (0 : ℝ) < 1 + Real.exp (-y) := by positivity
  rw [div_eq_div_iff hx.ne' hy.ne'] at h
  have h3 : Real.exp (-x) = Real.exp (-y) := by linarith
  have h4 := Real.exp_eq_exp.mp h3
  linarith

/-- C7: the single-node self-recurrent sigmoid net evaluated twice with
no inputs yields `[sigmoid 1]` then `[sigmoid (sigmoid 1 * 2)]` — the
second round reads the first round's settled value — and the two
outputs differ, so the second round is not a recomputation from the
initial `Accumulating 0` state. -/
theorem C7_recurrent_carry_over :
    C7_two_runs = some ([ActivationFunction.Sigmoid.apply 1],
      [ActivationFunction.Sigmoid.apply (ActivationFunction.Sigmoid.apply 1 * 2)]) ∧
    ActivationFunction.Sigmoid.apply (ActivationFunction.Sigmoid.apply 1 * 2)
      ≠ ActivationFunction.Sigmoid.apply 1 := by
  constructor
  · have h : C7_two_runs
        = some ([ActivationFunction.Sigmoid.apply (ActivationFunction.Sigmoid.apply 0 * 2)],
            [ActivationFunction.Sigmoid.apply
              (ActivationFunction.Sigmoid.apply
                (ActivationFunction.Sigmoid.apply 0 * 2) * 2)]) := rfl
    rw [h]
    have h0 : ActivationFunction.Sigmoid.apply 0 * 2 = 1 := by
      simp [ActivationFunction.apply, Real.exp_zero]
      norm_num
    rw [h0]
  · intro heq
    have h1 := sigmoid_injective heq
    have h2 : ActivationFunction.Sigmoid.apply 1 = 1 / 2 := by linarith
    simp only [ActivationFunction.apply] at h2
    have hx : (0 : ℝ) < 1 + Real.exp (-1) := by positivity
    rw [div_eq_div_iff hx.ne' (by norm_num : (2:ℝ) ≠ 0)] at h2
    have h3 : Real.exp (-1) = 1 := by linarith
    rw [Real.exp_eq_one_iff] at h3
    norm_num at h3

/-- C8: a realized node is always in exactly one of the two states, a
read settles an accumulating node by one activation application and
leaves a settled node unchanged, and a contribution always leaves the
node accumulating — starting afresh at the contribution when the node
was settled (the stale value is discarded) and adding to the running
sum otherwise. -/
theorem C8_node_state_machine :
    (∀ n : Node, (∃ s, n.value = .Accumulator s) ∨ (∃ v, n.value = .Activated v)) ∧
    (∀ (s : ℝ) (nt : NodeType) (f : ActivationFunction),
      Node.get_val ⟨.Accumulator s, nt, f⟩
        = (f.apply s, ⟨.Activated (f.apply s), nt, f⟩)) ∧
    (∀ (v : ℝ) (nt : NodeType) (f : ActivationFunction),
      Node.get_val ⟨.Activated v, nt, f⟩ = (v, ⟨.Activated v, nt, f⟩)) ∧
    (∀ (v x : ℝ) (nt : NodeType) (f : ActivationFunction),
      Node.add_to_val ⟨.Activated v, nt, f⟩ x = ⟨.Accumulator x, nt, f⟩) ∧
    (∀ (s x : ℝ) (nt : NodeType) (f : ActivationFunction),
      Node.add_to_val ⟨.Accumulator s, nt, f⟩ x = ⟨.Accumulator (x + s), nt, f⟩) := by
  refine ⟨fun n => ?_, fun s nt f => rfl, fun v nt f => rfl,
    fun v x nt f => rfl, fun s x nt f => rfl⟩
  cases h : n.value with
  | Accumulator s => exact Or.inl ⟨s, rfl⟩
  | Activated v => exact Or.inr ⟨v, rfl⟩

/-- C9: reading a node twice with no intervening contribution returns
the same value both times and leaves the node unchanged after the
first read, which caches the settled value — the activation function is
applied at most once per settle. -/
theorem C9_get_val_idempotent :
    ∀ n : Node,
      Node.get_val (Node.get_val n).2 = ((Node.get_val n).1, (Node.get_val n).2) ∧
      (Node.get_val n).2.value = .Activated (Node.get_val n).1 := by
  intro n
  cases n with
  | mk v nt f => cases v <;> simp [Node.get_val]

/-- Helper: `add_nodes` appends `n` templates carrying the builder's
current default activation function. -/
theorem add_nodes_nodes :
    ∀ (n : Nat) (b : NeuralNetBuilder) (t : NodeType),
      (b.add_nodes t n).nodes
        = b.nodes ++ List.replicate n ⟨t, b.default_func⟩ := by
  intro n
  induction n with
  | zero => intro b t; simp [NeuralNetBuilder.add_nodes]
  | succ m ih =>
      intro b t
      rw [NeuralNetBuilder.add_nodes, ih]
      simp [NeuralNetBuilder.add_node, List.replicate_succ]

/-- Helper: `add_inputs` appends `n` identity-activated input templates. -/
theorem add_inputs_nodes :
    ∀ (n : Nat) (b : NeuralNetBuilder),
      (b.add_inputs n).nodes
        = b.nodes ++ List.replicate n ⟨.Input, .Identity⟩ := by
  intro n
  induction n with
  | zero => intro b; simp [NeuralNetBuilder.add_inputs]
  | succ m ih =>
      intro b
      rw [NeuralNetBuilder.add_inputs, ih]
      simp [NeuralNetBuilder.add_input, List.replicate_succ]

/-- C10: a fresh builder's default activation is `Sigmoid`: `add_nodes`
called before any `set_default_activation` appends Sigmoid-activated
templates, while `add_inputs` always pins `Identity`. -/
theorem C10_default_activation_sigmoid :
    NeuralNetBuilder.new.default_func = .Sigmoid ∧
    (∀ (t : NodeType) (n : Nat),
      (NeuralNetBuilder.new.add_nodes t n).nodes = List.replicate n ⟨t, .Sigmoid⟩) ∧
    (∀ n : Nat,
      (NeuralNetBuilder.new.add_inputs n).nodes
        = List.replicate n ⟨.Input, .Identity⟩) := by
  refine ⟨rfl, fun t n => ?_, fun n => ?_⟩
  · rw [add_nodes_nodes]; rfl
  · rw [add_inputs_nodes]; rfl

/-- Helper: `pickReady` only returns the key of a scanned entry whose
required predecessors are all absent from the pending map. -/
theorem pickReady_spec :
    ∀ (scan pending : List (Nat × List Nat)) (k : Nat),
      pickReady scan pending = some k →
      ∃ v, (k, v) ∈ scan ∧ ready pending v = true := by
  intro scan
  induction scan with
  | nil => intro pending k h; simp [pickReady] at h
  | cons p rest ih =>
      intro pending k h
      obtain ⟨pk, pv⟩ := p
      rw [pickReady] at h
      by_cases hr : ready pending pv = true
      · rw [hr] at h
        simp only [if_true] at h
        injection h with h
        subst h
        exact ⟨pv, List.mem_cons_self _ _, hr⟩
      · rw [Bool.not_eq_true] at hr
        rw [hr] at h
        simp only [Bool.false_eq_true, if_false] at h
        obtain ⟨v, hv, hready⟩ := ih pending k h
        exact ⟨v, List.mem_cons_of_mem _ hv, hready⟩

/-- Helper: a blocking connection index below the bound is listed in
`required_before`. -/
theorem mem_required_before (cs : List ConnectionTemplate) (i j : Nat)
    (hi : i < cs.length) (hb : connBlocks cs i j = true) :
    i ∈ required_before cs j := by
  simp [required_before, List.mem_filter, List.mem_range, hi, hb]

/-- Helper: when a nonempty set `S` of connection indices is mutually
blocked — every member has a required predecessor that is also a member
— the scheduling loop can never place any member, so it ends in
`ConnectionLoop`. -/
theorem order_loop_stuck (cs : List ConnectionTemplate) (S : List Nat)
    (hne : S ≠ [])
    (hS : ∀ j ∈ S, j < cs.length ∧ ∃ i ∈ S, connBlocks cs i j = true) :
    ∀ (fuel : Nat) (pending : List (Nat × List Nat)) (acc : List Nat),
      (∀ p ∈ pending, p.2 = required_before cs p.1) →
      (∀ j ∈ S, j ∈ pending.map Prod.fst) →
      order_loop fuel pending acc = .error .ConnectionLoop := by
  have hSmem : ∃ j, j ∈ S := by
    cases S with
    | nil => exact absurd rfl hne
    | cons a t => exact ⟨a, List.mem_cons_self _ _⟩
  intro fuel
  induction fuel with
  | zero =>
      intro pending acc _ inv2
      cases pending with
      | nil =>
          obtain ⟨j, hj⟩ := hSmem
          have := inv2 j hj
          simp at this
      | cons p ps => rfl
  | succ f ih =>
      intro pending acc inv1 inv2
      cases pending with
      | nil =>
          obtain ⟨j, hj⟩ := hSmem
          have := inv2 j hj
          simp at this
      | cons p ps =>
          rw [order_loop]
          cases hpick : pickReady (p :: ps) (p :: ps) with
          | none => rfl
          | some k =>
              obtain ⟨v, hv_mem, hready⟩ := pickReady_spec _ _ _ hpick
              have hv : v = required_before cs k := inv1 (k, v) hv_mem
              have hkS : k ∉ S := by
                intro hk
                obtain ⟨hklen, i, hiS, hblocks⟩ := hS k hk
                have hilen := (hS i hiS).1
                have hi_rb : i ∈ required_before cs k :=
                  mem_required_before cs i k hilen hblocks
                have hi_v : i ∈ v := by rw [hv]; exact hi_rb
                have habsent : i ∉ (p :: ps).map Prod.fst := by
                  have := List.all_eq_true.mp hready i hi_v
                  exact of_decide_eq_true this
                exact habsent (inv2 i hiS)
              apply ih
              · intro q hq
                exact inv1 q (List.mem_of_mem_filter hq)
              · intro j hj
                obtain ⟨q, hq_mem, hq_fst⟩ := List.mem_map.mp (inv2 j hj)
                have hjk : j ≠ k := fun hjeq => hkS (hjeq ▸ hj)
                refine List.mem_map.mpr ⟨q, List.mem_filter.mpr ⟨hq_mem, ?_⟩, hq_fst⟩
                rw [hq_fst]
                exact decide_eq_true hjk

/-- Helper: a mutually blocked nonempty index set makes
`connection_order` fail with `ConnectionLoop`. -/
theorem connection_order_blocked (cs : List ConnectionTemplate) (S : List Nat)
    (hne : S ≠ [])
    (hS : ∀ j ∈ S, j < cs.length ∧ ∃ i ∈ S, connBlocks cs i j = true) :
    connection_order cs = .error .ConnectionLoop := by
  apply order_loop_stuck cs S hne hS
  · intro p hp
    obtain ⟨j, _, hj⟩ := List.mem_map.mp hp
    rw [← hj]
  · intro j hj
    have hjlen := (hS j hj).1
    simp only [init_pending, List.map_map]
    refine List.mem_map.mpr ⟨j, List.mem_range.mpr hjlen, rfl⟩

/-- Helper: a `connection_order` failure propagates through `build_from`. -/
theorem build_from_order_error (b : NeuralNetBuilder) (e : Error)
    (h : connection_order b.connections = .error e) :
    build_from b = .error e := by
  rw [build_from, h]

/-- Helper: every element of a list appears as the second component of
a cyclically adjacent pair, with its predecessor drawn from the list. -/
theorem cyclic_pairs_snd (l : List Nat) (j : Nat) (hj : j ∈ l) :
    ∃ i ∈ l, (i, j) ∈ cyclic_pairs l := by
  have hj1 : j ∈ l.rotate 1 := List.mem_rotate.mpr hj
  obtain ⟨q, hq, hqj⟩ := List.getElem_of_mem hj1
  have hlen : (l.rotate 1).length = l.length := List.length_rotate l 1
  have hql : q < l.length := by rw [← hlen]; exact hq
  have hzlen : q < (l.zip (l.rotate 1)).length := by
    rw [List.length_zip, hlen, Nat.min_self]; exact hql
  refine ⟨l[q], List.getElem_mem hql, ?_⟩
  have : (l.zip (l.rotate 1))[q] = (l[q], (l.rotate 1)[q]) := List.getElem_zip
  rw [hqj] at this
  rw [← this]
  exact List.getElem_mem hzlen

/-- Helper: every element of a list appears as the first component of a
cyclically adjacent pair, with its successor drawn from the list. -/
theorem cyclic_pairs_fst (l : List Nat) (j : Nat) (hj : j ∈ l) :
    ∃ i ∈ l, (j, i) ∈ cyclic_pairs l := by
  obtain ⟨q, hq, hqj⟩ := List.getElem_of_mem hj
  have hlen : (l.rotate 1).length = l.length := List.length_rotate l 1
  have hqr : q < (l.rotate 1).length := by rw [hlen]; exact hq
  have hzlen : q < (l.zip (l.rotate 1)).length := by
    rw [List.length_zip, hlen, Nat.min_self]; exact hq
  refine ⟨(l.rotate 1)[q], List.mem_rotate.mp (List.getElem_mem hqr), ?_⟩
  have : (l.zip (l.rotate 1))[q] = (l[q], (l.rotate 1)[q]) := List.getElem_zip
  rw [hqj] at this
  rw [← this]
  exact List.getElem_mem hzlen

/-- C3 (amended): a cycle of at least two distinct `Normal` connections
makes `build` fail with `ConnectionLoop`. -/
theorem C3_normal_cycle_build_fails (b : NeuralNetBuilder) (l : List Nat)
    (h : normal_cycle b.connections l = true) :
    build_from b = .error .ConnectionLoop := by
  apply build_from_order_error b .ConnectionLoop
  rw [normal_cycle, Bool.and_eq_true, Bool.and_eq_true] at h
  obtain ⟨⟨hne, hall⟩, hpairs⟩ := h
  apply connection_order_blocked b.connections l
  · intro hl
    rw [hl] at hne
    simp at hne
  · intro j hj
    have hjprop := List.all_eq_true.mp hall j hj
    rw [Bool.and_eq_true] at hjprop
    refine ⟨of_decide_eq_true hjprop.1, ?_⟩
    obtain ⟨i, hi, hpair⟩ := cyclic_pairs_snd l j hj
    have hip := List.all_eq_true.mp hpairs (i, j) hpair
    rw [Bool.and_eq_true] at hip
    have hne_ij : i ≠ j := of_decide_eq_true hip.1
    have hdo : (b.connections.getD i default).dest
        = (b.connections.getD j default).origin := of_decide_eq_true hip.2
    have hjn : (b.connections.getD j default).connection_type = .Normal := by
      have := List.all_eq_true.mp hall j hj
      rw [Bool.and_eq_true] at this
      exact of_decide_eq_true this.2
    refine ⟨i, hi, ?_⟩
    rw [connBlocks]
    simp only [Bool.and_eq_true, Bool.or_eq_true, decide_eq_true_eq]
    exact ⟨hne_ij, Or.inl ⟨hdo, hjn⟩⟩

/-- C3 witness: the two-connection Normal cycle `0 → 1, 1 → 0` is
rejected by `build`. -/
theorem C3_normal_cycle_build_fails_witness :
    normal_cycle C3w_builder.connections [0, 1] = true ∧
    build_from C3w_builder = .error .ConnectionLoop :=
  ⟨by decide, C3_normal_cycle_build_fails C3w_builder [0, 1] (by decide)⟩

/-- C3 counterexample: the claim includes a single Normal self-loop
`A → A` among the cycles that must fail, but the scheduler's
`different_connection` guard exempts a connection from blocking itself,
so this builder constructs successfully. -/
theorem C3_counterexample_normal_self_loop_builds :
    (build_from C3cex_builder).isOk = true := by rfl

/-- C4 (amended): a cycle of at least two distinct `Recurrent`
connections makes `build` fail with `ConnectionLoop`. -/
theorem C4_recurrent_cycle_build_fails (b : NeuralNetBuilder) (l : List Nat)
    (h : recurrent_cycle b.connections l = true) :
    build_from b = .error .ConnectionLoop := by
  apply build_from_order_error b .ConnectionLoop
  rw [recurrent_cycle, Bool.and_eq_true, Bool.and_eq_true] at h
  obtain ⟨⟨hne, hall⟩, hpairs⟩ := h
  apply connection_order_blocked b.connections l
  · intro hl
    rw [hl] at hne
    simp at hne
  · intro j hj
    have hjprop := List.all_eq_true.mp hall j hj
    rw [Bool.and_eq_true] at hjprop
    refine ⟨of_decide_eq_true hjprop.1, ?_⟩
    obtain ⟨i, hi, hpair⟩ := cyclic_pairs_fst l j hj
    have hip := List.all_eq_true.mp hpairs (j, i) hpair
    rw [Bool.and_eq_true] at hip
    have hne_ji : j ≠ i := of_decide_eq_true hip.1
    have hdo : (b.connections.getD j default).dest
        = (b.connections.getD i default).origin := of_decide_eq_true hip.2
    have hir : (b.connections.getD i default).connection_type = .Recurrent := by
      have := List.all_eq_true.mp hall i hi
      rw [Bool.and_eq_true] at this
      exact of_decide_eq_true this.2
    refine ⟨i, hi, ?_⟩
    rw [connBlocks]
    simp only [Bool.and_eq_true, Bool.or_eq_true, decide_eq_true_eq]
    exact ⟨fun hie => hne_ji hie.symm, Or.inr ⟨hdo.symm, hir⟩⟩

/-- C4 witness: the two-connection Recurrent cycle `0 → 1, 1 → 0` is
rejected by `build`. -/
theorem C4_recurrent_cycle_build_fails_witness :
    recurrent_cycle C4w_builder.connections [0, 1] = true ∧
    build_from C4w_builder = .error .ConnectionLoop :=
  ⟨by decide, C4_recurrent_cycle_build_fails C4w_builder [0, 1] (by decide)⟩

/-- C4 counterexample: a single-connection Recurrent self-loop is a
cycle composed entirely of Recurrent connections, yet `build` accepts
it (the `different_connection` guard exempts self-blocking) — indeed
the recurrent carry-over behaviour of the spec depends on accepting
it. -/
theorem C4_counterexample_recurrent_self_loop_builds :
    (build_from C4cex_builder).isOk = true := by rfl

/-- Helper: loading inputs neither adds nor removes nodes. -/
theorem load_input_values_length :
    ∀ (ns : List Node) (xs : List ℝ),
      (load_input_values ns xs).length = ns.length := by
  intro ns
  induction ns with
  | nil => intro xs; cases xs <;> rfl
  | cons n ns ih =>
      intro xs
      cases xs with
      | nil => rfl
      | cons x xs =>
          rw [load_input_values]
          by_cases h : n.node_type = NodeType.Input

          · rw [if_pos h]
            simp [ih]
          · rw [if_neg h]
            simp [ih]

/-- Helper: firing one in-bounds connection succeeds and preserves the
node count. -/
theorem fire_some (ns : List Node) (conn : Connection)
    (h1 : conn.origin < ns.length) (h2 : conn.dest < ns.length) :
    ∃ ns2, fire ns conn = some ns2 ∧ ns2.length = ns.length := by
  have h2s : conn.dest < (ns.set conn.origin (ns[conn.origin].get_val).2).length := by
    simpa using h2
  simp only [fire, List.getElem?_eq_getElem h1, List.getElem?_eq_getElem h2s]
  exact ⟨_, rfl, by simp⟩

/-- Helper: firing a list of in-bounds connections succeeds and
preserves the node count. -/
theorem fire_all_some :
    ∀ (conns : List Connection) (ns : List Node),
      (∀ c ∈ conns, c.origin < ns.length ∧ c.dest < ns.length) →
      ∃ ns2, fire_all ns conns = some ns2 ∧ ns2.length = ns.length := by
  intro conns
  induction conns with
  | nil => intro ns _; exact ⟨ns, rfl, rfl⟩
  | cons c cs ih =>
      intro ns hb
      obtain ⟨h1, h2⟩ := hb c (List.mem_cons_self _ _)
      obtain ⟨ns2, hf, hlen⟩ := fire_some ns c h1 h2
      rw [fire_all, hf]
      obtain ⟨ns3, hfa, hlen3⟩ := ih ns2 (fun d hd => by
        rw [hlen]; exact hb d (List.mem_cons_of_mem _ hd))
      exact ⟨ns3, hfa, by rw [hlen3, hlen]⟩

/-- Helper: every connection materialized by `realize_connections`
copies its origin and destination from some connection template. -/
theorem realize_connections_mem :
    ∀ (ord : List Nat) (cs : List ConnectionTemplate) (l : List Connection),
      realize_connections cs ord = .ok l →
      ∀ c ∈ l, ∃ t ∈ cs, c.origin = t.origin ∧ c.dest = t.dest := by
  intro ord
  induction ord with
  | nil =>
      intro cs l h c hc
      rw [realize_connections] at h
      injection h with h
      rw [← h] at hc
      simp at hc
  | cons i rest ih =>
      intro cs l h c hc
      rw [realize_connections] at h
      cases h1 : cs[i]? with
      | none => rw [h1] at h; exact absurd h (by simp)
      | some t =>
          rw [h1] at h
          cases h2 : realize_connections cs rest with
          | error e => rw [h2] at h; exact absurd h (by simp)
          | ok l0 =>
              rw [h2] at h
              injection h with h
              rw [← h] at hc
              cases hc with
              | head => exact ⟨t, List.getElem?_mem h1, rfl, rfl⟩
              | tail _ hmem => exact ih cs l0 h2 c hmem

/-- Helper: a successful `build_from` yields exactly one realized node
per node template and connections materialized from the connection
templates. -/
theorem build_from_ok_shape (b : NeuralNetBuilder) (net : ConsecutiveNeuralNet)
    (h : build_from b = .ok net) :
    net.nodes.length = b.nodes.length ∧
    ∀ c ∈ net.connections, ∃ t ∈ b.connections,
      c.origin = t.origin ∧ c.dest = t.dest := by
  rw [build_from] at h
  cases hco : connection_order b.connections with
  | error e => rw [hco] at h; simp at h
  | ok ord =>
      rw [hco] at h
      simp only [] at h
      cases hrc : realize_connections b.connections ord with
      | error e => rw [hrc] at h; simp at h
      | ok conns =>
          rw [hrc] at h
          simp only [] at h
          injection h with h
          rw [← h]
          exact ⟨by simp, realize_connections_mem ord b.connections conns hrc⟩

/-- C2 (amended): for every builder whose connection templates all
address node indices inside the node-template bounds, a successfully
built net evaluates without failure on every input sequence — the
out-of-bounds panic is the only failure mode of `evaluate`, and it is
excluded by the bounds premise. -/
theorem C2_amended_inbounds_evaluate_total (b : NeuralNetBuilder)
    (net : ConsecutiveNeuralNet) (ins : List ℝ)
    (hb : conns_in_bounds b = true) (h : build_from b = .ok net) :
    (evaluate net ins).isSome = true := by
  obtain ⟨hlen, hconns⟩ := build_from_ok_shape b net h
  rw [evaluate]
  have hbound : ∀ c ∈ net.connections,
      c.origin < (load_input_values net.nodes ins).length ∧
      c.dest < (load_input_values net.nodes ins).length := by
    intro c hc
    obtain ⟨t, ht_mem, ho, hd⟩ := hconns c hc
    have := List.all_eq_true.mp hb t ht_mem
    rw [Bool.and_eq_true] at this
    rw [load_input_values_length, hlen, ho, hd]
    exact ⟨of_decide_eq_true this.1, of_decide_eq_true this.2⟩
  obtain ⟨ns2, hfa, _⟩ := fire_all_some net.connections _ hbound
  rw [hfa]
  rfl

/-- C2 witness: a concrete in-bounds builder whose built net evaluates
successfully. -/
theorem C2_amended_inbounds_evaluate_total_witness :
    conns_in_bounds C2w_builder = true ∧
    build_from C2w_builder = .ok C2w_net ∧
    (evaluate C2w_net []).isSome = true :=
  ⟨by decide, by rfl,
    C2_amended_inbounds_evaluate_total C2w_builder C2w_net [] (by decide) (by rfl)⟩

/-- C2 counterexample: the claim says `evaluate` never fails on a net
that `build` returned successfully, but the builder whose single
connection addresses destination `7` in a one-node template builds
successfully and its evaluation indexes out of bounds (a panic,
modelled as `none`). -/
theorem C2_counterexample_evaluate_panics :
    (build_from C2cex_builder).isOk = true ∧
    (build_from C2cex_builder).toOption.bind (fun net => evaluate net []) = none := by
  constructor <;> rfl

end Entendre
